import Mathlib

/-!
Verification of the Robot Framework MCP server core
(`mcp_server/server.py`, `mcp_server/tools.py`) via a shallow embedding.

Strings are Lean `String`s; Python `str.strip`/`str.upper`/`str.lower` and
the startswith/endswith/slice operations are re-implemented structurally
over the character data (`trimS`, `upperS`, `lowerS`, `startsWithS`, ...)
so that every definition evaluates inside the kernel.  Filesystem state is
passed explicitly (directory listings as `List String`, report artifacts as
parsed XML trees).  Python exceptions are `Except`.
-/

/-- Prefix test on character lists. -/
def charsPre : List Char → List Char → Bool
  | [], _ => true
  | _ :: _, [] => false
  | a :: as, b :: bs => a = b && charsPre as bs

/-- Contiguous-substring test on character lists. -/
def charsSub (needle : List Char) : List Char → Bool
  | [] => needle.isEmpty
  | b :: bs => charsPre needle (b :: bs) || charsSub needle bs

/-- Python `str.upper()` (ASCII-faithful). -/
def upperS (s : String) : String := String.mk (s.data.map Char.toUpper)

/-- Python `str.lower()` (ASCII-faithful). -/
def lowerS (s : String) : String := String.mk (s.data.map Char.toLower)

/-- Python `str.strip()` on character data. -/
def trimChars (s : List Char) : List Char :=
  ((s.dropWhile Char.isWhitespace).reverse.dropWhile Char.isWhitespace).reverse

/-- Python `str.strip()`. -/
def trimS (s : String) : String := String.mk (trimChars s.data)

/-- Python `s.startswith(pre)`. -/
def startsWithS (s pre : String) : Bool := charsPre pre.data s.data

/-- Python `s.endswith(suf)`. -/
def endsWithS (s suf : String) : Bool := charsPre suf.data.reverse s.data.reverse

/-- Python `s[n:]` for a non-negative `n`. -/
def dropS (s : String) (n : Nat) : String := String.mk (s.data.drop n)

/-- Drop the last `n` characters. -/
def dropRightS (s : String) (n : Nat) : String :=
  String.mk (s.data.take (s.data.length - n))

/-- Python `needle in hay` substring test. -/
def strContains (hay needle : String) : Bool := charsSub needle.data hay.data

/-- Python `keyword_lower in text.lower()` with `keyword_lower = keyword.lower()`:
case-insensitive substring test from `search_test_logs`. -/
def containsCI (hay needle : String) : Bool := strContains (lowerS hay) (lowerS needle)

/- ---------------------------------------------------------------------------
Input validator, from `mcp_server/server.py`:

  SAFE_SUITE_NAME_PATTERN = re.compile(r"^[a-zA-Z][a-zA-Z0-9_]{0,63}$")
  DANGEROUS_PATTERNS = re.compile(r"[/\\;|&$`<>\"\x27]|\.\.|\x00")
--------------------------------------------------------------------------- -/

/-- One character of the `DANGEROUS_PATTERNS` character class:
forward/back slash, `;`, `|`, `&`, `$`, backtick, `<`, `>`, double quote,
single quote, or the NUL byte. -/
def dangerousChar (c : Char) : Bool :=
  c = '/' || c = '\\' || c = ';' || c = '|' || c = '&' || c = '$' ||
  c = Char.ofNat 96 || c = '<' || c = '>' || c = '"' || c = Char.ofNat 39 ||
  c = Char.ofNat 0

/-- `DANGEROUS_PATTERNS.search(value)`: some dangerous character occurs, or
the two-character sequence `..` occurs somewhere in the string. -/
def containsDangerous (value : String) : Bool :=
  value.data.any dangerousChar || charsSub ['.', '.'] value.data

/-- First-character class `[a-zA-Z]` of the safe pattern. -/
def safeHeadChar (c : Char) : Bool :=
  ('a' ≤ c && c ≤ 'z') || ('A' ≤ c && c ≤ 'Z')

/-- Repeated-character class `[a-zA-Z0-9_]` of the safe pattern. -/
def safeTailChar (c : Char) : Bool :=
  safeHeadChar c || ('0' ≤ c && c ≤ '9') || c = '_'

/-- Exact (whole-string) match of `^[a-zA-Z][a-zA-Z0-9_]{0,63}$`. -/
def strictSafeMatch (s : List Char) : Bool :=
  match s with
  | [] => false
  | c :: rest => safeHeadChar c && rest.length ≤ 63 && rest.all safeTailChar

/-- Python `SAFE_SUITE_NAME_PATTERN.match(value)` viewed as a Bool.  In Python
(no MULTILINE) `$` also matches just before a single trailing newline, so the
match succeeds on `s` or on `s` minus one trailing newline. -/
def pyMatchSafe (value : String) : Bool :=
  strictSafeMatch value.data ||
    (value.data.getLast? = some '\n' && strictSafeMatch value.data.dropLast)

/-- Rejection reasons of `_validate_suite_name` (the Python function raises
`ValueError` with a message; the message text is abstracted to a tag). -/
inductive ValidateError where
  | emptyValue
  | forbiddenChars
  | badPattern
deriving Repr, DecidableEq

/-- `_validate_suite_name(value, field_name, allow_empty)` from
`mcp_server/server.py` (the `field_name` argument only feeds the error
message, which is abstracted by `ValidateError`). -/
def validateSuiteName (value : String) (allow_empty : Bool) :
    Except ValidateError String :=
  if value.data = [] then
    if allow_empty then .ok value else .error .emptyValue
  else if containsDangerous value then .error .forbiddenChars
  else if pyMatchSafe value = false then .error .badPattern
  else .ok value

/-- `Except.isOk` as used below. -/
def exceptOk {ε α : Type} (e : Except ε α) : Bool :=
  match e with
  | .ok _ => true
  | .error _ => false

/- ---------------------------------------------------------------------------
XML report model and the log-search engine, from `mcp_server/tools.py`.

`xml.etree.ElementTree` elements are embedded as finite trees carrying a tag,
an attribute list, a text field and an ordered child list.  `tree.iter("msg")`
is a depth-first, document-order traversal; since the Python code recovers
parents through a child-to-parent map built over a freshly parsed tree (every
element has a unique parent), the traversal here carries the ancestor chain
(nearest ancestor first) explicitly.
--------------------------------------------------------------------------- -/

/-- An `xml.etree.ElementTree` element: tag, attributes, text, children. -/
inductive Elem where
  | mk : String → List (String × String) → String → List Elem → Elem

/-- Element tag. -/
def Elem.tag : Elem → String
  | .mk t _ _ _ => t

/-- Element attribute list. -/
def Elem.attrs : Elem → List (String × String)
  | .mk _ a _ _ => a

/-- Element text (Python `el.text or ""`: absent text is the empty string). -/
def Elem.text : Elem → String
  | .mk _ _ tx _ => tx

/-- Element children, in document order. -/
def Elem.children : Elem → List Elem
  | .mk _ _ _ cs => cs

/-- Python `el.get(key)`: first binding of `key` in the attribute list. -/
def Elem.attrGet (e : Elem) (key : String) : Option String :=
  e.attrs.lookup key

mutual

/-- All elements tagged `"msg"` in the subtree rooted at `e`, in document
order (the order of `tree.iter("msg")`), each paired with its ancestor chain,
nearest ancestor first; `anc` is the chain above `e` itself. -/
def collectMsgs (anc : List Elem) : Elem → List (Elem × List Elem)
  | .mk t a tx cs =>
    (if t = "msg" then [(Elem.mk t a tx cs, anc)] else []) ++
      collectMsgsList (Elem.mk t a tx cs :: anc) cs

/-- `collectMsgs` over a child list, left to right. -/
def collectMsgsList (anc : List Elem) : List Elem → List (Elem × List Elem)
  | [] => []
  | c :: cs => collectMsgs anc c ++ collectMsgsList anc cs

end

/-- The upward walk of `_find_ancestor_test_name`: scan the chain from the
start node upward; at the first element tagged `"test"` return its `name`
attribute (default `"(unknown)"`); if the root is passed without meeting a
test element, return the sentinel `"(suite-level)"`. -/
def walkUp : List Elem → String
  | [] => "(suite-level)"
  | n :: rest =>
    if n.tag = "test" then (n.attrGet "name").getD "(unknown)" else walkUp rest

/-- `_find_ancestor_test_name(tree, target)` from `mcp_server/tools.py`:
the walk starts at `target` itself and proceeds through its ancestors. -/
def findAncestorTestName (target : Elem) (anc : List Elem) : String :=
  walkUp (target :: anc)

/-- One entry of the `search_test_logs` result array. -/
structure LogEntry where
  suite : String
  test : String
  level : String
  timestamp : String
  message : String
deriving Repr, DecidableEq

/-- One `results/<suite>/output.xml` artifact: the owning directory name,
its filesystem modification time, and the parsed tree (`none` models an
`ET.ParseError`, which `search_test_logs` skips). -/
structure Artifact where
  suiteName : String
  mtime : Nat
  parsed : Option Elem

/-- Stable insertion of `a` into a list already sorted by `mtime`
descending: `a` goes before the first element whose `mtime` is not larger,
so earlier-listed artifacts precede later ones on ties. -/
def insertByMtime (a : Artifact) : List Artifact → List Artifact
  | [] => [a]
  | b :: bs => if a.mtime < b.mtime then b :: insertByMtime a bs else a :: b :: bs

/-- Python `sorted(..., key=mtime, reverse=True)`: stable sort, newest
first. -/
def sortByMtime : List Artifact → List Artifact
  | [] => []
  | a :: rest => insertByMtime a (sortByMtime rest)

/-- `severity_order` from `search_test_logs`, least severe first. -/
def severity_order : List String :=
  ["TRACE", "DEBUG", "INFO", "WARN", "ERROR", "FAIL"]

/-- `_VALID_LEVELS` from `mcp_server/tools.py`. -/
def VALID_LEVELS : List String :=
  ["FAIL", "ERROR", "WARN", "INFO", "DEBUG", "TRACE"]

/-- The allowed severity set for a minimum level: `severity_order[min_index:]`
where `min_index = severity_order.index(level)`. -/
def allowedLevels (level : String) : List String :=
  severity_order.drop (severity_order.findIdx (fun s => s = level))

/-- The per-message body of the `search_test_logs` loop: severity filter,
case-insensitive keyword filter, then entry construction with the ancestor
walk for the owning test name. -/
def msgToEntry (suite_name : String) (allowed : List String)
    (keyword : String) (m : Elem) (anc : List Elem) : Option LogEntry :=
  let msg_level := upperS ((m.attrGet "level").getD "")
  if allowed.contains msg_level = false then none
  else if containsCI m.text keyword = false then none
  else some
    { suite := suite_name
      test := findAncestorTestName m anc
      level := msg_level
      timestamp := (m.attrGet "timestamp").getD ""
      message := trimS m.text }

/-- `search_test_logs(keyword, log_level)` from `mcp_server/tools.py`, as a
function of the current set of report artifacts.  Error payloads
(`{"error": ...}`) are the `Except.error` branch, carrying the message. -/
def searchTestLogs (keyword log_level : String) (files : List Artifact) :
    Except String (List LogEntry) :=
  let level := upperS log_level
  if VALID_LEVELS.contains level = false then
    .error ("Invalid log_level \x27" ++ log_level ++
      "\x27. Must be one of: [\x27DEBUG\x27, \x27ERROR\x27, \x27FAIL\x27, " ++
      "\x27INFO\x27, \x27TRACE\x27, \x27WARN\x27]")
  else
    let xml_files := sortByMtime files
    if xml_files.isEmpty then
      .error "No output.xml files found. Run execute_test_suite first."
    else
      let allowed := allowedLevels level
      .ok (xml_files.flatMap (fun f =>
        match f.parsed with
        | none => []
        | some root =>
          (collectMsgs [] root).filterMap (fun p =>
            msgToEntry f.suiteName allowed keyword p.1 p.2)))

/- ---------------------------------------------------------------------------
Suite discovery, from `mcp_server/tools.py` (`_extract_suite_doc`,
`list_available_tests`).  A `.robot` file is its list of lines (Python
iterates `read_text().splitlines()`); the tests directory is a list of
file names plus a map from file name to file lines.
--------------------------------------------------------------------------- -/

/-- Python `s.split(None, 1)` on character data: strip leading whitespace,
take the first whitespace-free token, skip the separating whitespace run and
keep the remainder as-is; an empty remainder is dropped. -/
def splitOnce (s : List Char) : List (List Char) :=
  let s0 := s.dropWhile Char.isWhitespace
  if s0.isEmpty then []
  else
    let tok := s0.takeWhile (fun c => c.isWhitespace = false)
    let rest := (s0.dropWhile (fun c => c.isWhitespace = false)).dropWhile Char.isWhitespace
    if rest.isEmpty then [tok] else [tok, rest]

/-- The line loop of `_extract_suite_doc`, with its three pieces of state:
`in_settings`, `capturing`, and the accumulated `doc_lines`. -/
def extractLoop : List String → Bool → Bool → List String → List String
  | [], _, _, acc => acc
  | raw :: rest, in_settings, capturing, acc =>
    let line := trimS raw
    if line = "*** Settings ***" then extractLoop rest true capturing acc
    else if startsWithS line "*** " && in_settings then acc
    else if in_settings = false then extractLoop rest false capturing acc
    else if capturing && startsWithS line "..." then
      extractLoop rest true capturing (acc ++ [trimS (dropS line 3)])
    else if startsWithS (lowerS line) "documentation" then
      match splitOnce line.data with
      | _ :: second :: _ => extractLoop rest true true (acc ++ [String.mk second])
      | _ => extractLoop rest true true acc
    else extractLoop rest true false acc

/-- The pure part of `_extract_suite_doc(robot_file)` after `read_text`
succeeds: run the line loop over the decoded lines from the initial state,
then `" ".join(doc_lines).strip()`. -/
def extractSuiteDoc (lines : List String) : String :=
  trimS (String.intercalate " " (extractLoop lines false false []))

/-- `_extract_suite_doc(robot_file)` from `mcp_server/tools.py` including
its first statement, `robot_file.read_text(encoding="utf-8").splitlines()`:
`readText` models that call and returns `Except.error` with the exception
message when the file bytes are not valid UTF-8 (`UnicodeDecodeError`) or
the file cannot be read (`OSError`).  Neither this function nor its caller
catches the error, so it propagates. -/
def extractSuiteDocFile (readText : String → Except String (List String))
    (f : String) : Except String String :=
  match readText f with
  | .error e => .error e
  | .ok lines => .ok (extractSuiteDoc lines)

/-- One element of the `list_available_tests` JSON array. -/
structure SuiteDescriptor where
  name : String
  file : String
  description : String
deriving Repr, DecidableEq

/-- `TESTS_DIR.glob("*.robot")`: the directory entries whose name ends in
`.robot` (pathlib glob also matches names starting with a dot). -/
def globRobot (files : List String) : List String :=
  files.filter (fun f => endsWithS f ".robot")

/-- `Path(f).stem` for a name ending in `.robot`: drop the final `.robot`
suffix, except that the bare name `.robot` has no suffix and is its own
stem. -/
def robotStem (f : String) : String :=
  if f.length = 6 then f else dropRightS f 6

/-- Insertion of a string into an ascending sorted list. -/
def insertStr (a : String) : List String → List String
  | [] => [a]
  | b :: bs => if b < a then b :: insertStr a bs else a :: b :: bs

/-- Python `sorted` on same-directory paths: ascending lexicographic order
of file names. -/
def sortStrs : List String → List String
  | [] => []
  | a :: rest => insertStr a (sortStrs rest)

/-- Outcome of `list_available_tests()`: an uncaught Python exception
propagating out of the tool, the returned `{"error": ...}` JSON payload, or
the returned array of suite descriptors. -/
inductive DiscoveryResult where
  | raised (exc : String)
  | errorPayload (msg : String)
  | ok (suites : List SuiteDescriptor)
deriving Repr, DecidableEq

/-- The `for robot_file in sorted(TESTS_DIR.glob("*.robot"))` loop of
`list_available_tests`: builds one descriptor per file, in order; the first
read/decode error raised inside `_extract_suite_doc` aborts the loop. -/
def buildSuites (readText : String → Except String (List String)) :
    List String → Except String (List SuiteDescriptor)
  | [] => .ok []
  | f :: fs =>
    match extractSuiteDocFile readText f with
    | .error e => .error e
    | .ok desc =>
      match buildSuites readText fs with
      | .error e => .error e
      | .ok rest =>
        .ok ({ name := robotStem f
               file := "tests/" ++ f
               description := desc } :: rest)

/-- `list_available_tests()` from `mcp_server/tools.py`, as a function of
the tests directory state: whether the directory exists, its entries, and
the `read_text` outcome of each entry.  An absent directory returns the
error payload (the absolute `TESTS_DIR` path in its message is rendered as
`tests`); a read/decode error inside `_extract_suite_doc` is caught nowhere
and propagates out of the tool (`DiscoveryResult.raised`). -/
def listAvailableTests (dirPresent : Bool) (files : List String)
    (readText : String → Except String (List String)) : DiscoveryResult :=
  if dirPresent = false then .errorPayload "Tests directory not found: tests"
  else
    match buildSuites readText (sortStrs (globRobot files)) with
    | .error e => .raised e
    | .ok suites => .ok suites

/- ---------------------------------------------------------------------------
The parsed report of the external engine.  The `robot` library is not part of
this repository; its result object is modelled from the spec.
--------------------------------------------------------------------------- -/

/-- Modelled from the spec: a test status of the external engine report
(`TestOutcome.status`, §3: PASS/FAIL, with skipped tests counted
separately). -/
inductive RFStatus where
  | pass
  | fail
  | skip
deriving Repr, DecidableEq

/-- Engine-native rendering of a status. -/
def RFStatus.str : RFStatus → String
  | .pass => "PASS"
  | .fail => "FAIL"
  | .skip => "SKIP"

/-- Modelled from the spec: one per-test entry of the parsed report
(name, status, message, tags; §3 TestOutcome — durations are floats and are
not modelled). -/
structure RFTest where
  name : String
  status : RFStatus
  message : String
  tags : List String
deriving Repr, DecidableEq

/-- Modelled from the spec: the root suite of the parsed report
(§3 ExecutionReport: suite name, aggregate status, ordered tests). -/
structure RFSuite where
  name : String
  status : RFStatus
  tests : List RFTest
deriving Repr, DecidableEq

/-- Modelled from the spec: `suite.statistics.passed` — the number of
passing tests. -/
def RFSuite.statsPassed (s : RFSuite) : Nat :=
  s.tests.countP (fun t => t.status = RFStatus.pass)

/-- Modelled from the spec: `suite.statistics.failed`. -/
def RFSuite.statsFailed (s : RFSuite) : Nat :=
  s.tests.countP (fun t => t.status = RFStatus.fail)

/-- Modelled from the spec: `suite.statistics.skipped`. -/
def RFSuite.statsSkipped (s : RFSuite) : Nat :=
  s.tests.countP (fun t => t.status = RFStatus.skip)

/-- Modelled from the spec: `suite.statistics.total` — the number of tests
of the report. -/
def RFSuite.statsTotal (s : RFSuite) : Nat :=
  s.tests.length

/-- Modelled from the spec: the object returned by
`ExecutionResult(output_xml)`, exposing the root suite. -/
structure RFResult where
  suite : RFSuite
deriving Repr, DecidableEq

/-- One element of the `tests` array built by `_result_to_dict`
(`duration_s`, a rounded float, is not modelled). -/
structure TestDict where
  name : String
  status : String
  message : String
  tags : List String
deriving Repr, DecidableEq

/-- The dict built by `_result_to_dict` (`elapsed_s`, a rounded float, is
not modelled). -/
structure ReportDict where
  suite : String
  status : String
  total : Nat
  passed : Nat
  failed : Nat
  skipped : Nat
  tests : List TestDict
deriving Repr, DecidableEq

/-- `_result_to_dict(result)` from `mcp_server/tools.py`. -/
def resultToDict (result : RFResult) : ReportDict :=
  let suite := result.suite
  { suite := suite.name
    status := suite.status.str
    total := suite.statsTotal
    passed := suite.statsPassed
    failed := suite.statsFailed
    skipped := suite.statsSkipped
    tests := suite.tests.map (fun t =>
      { name := t.name
        status := t.status.str
        message := t.message
        tags := t.tags }) }

/- ---------------------------------------------------------------------------
Suite executor, from `mcp_server/tools.py` (`execute_test_suite`) and its
HTTP facade, from `mcp_server/server.py` (`ExecuteRequest` validation then
the tool call).
--------------------------------------------------------------------------- -/

/-- One run of the external engine on a given suite file: the outcome of
`robot.run` (`Except.error` models a raised exception), whether
`output.xml` exists afterwards, and the outcome of parsing it with
`ExecutionResult`. -/
structure EngineBehavior where
  run : Except String Int
  outputCreated : Bool
  parse : Except String RFResult

/-- The JSON payloads `execute_test_suite` can return, one constructor per
`return json.dumps(...)` site, each carrying its `error` message where the
code builds one. -/
inductive ExecutePayload where
  | notFound (error : String) (available_suites : List String)
  | executionFailed (error : String) (timestamp : String)
  | outputMissing (error : String) (return_code : Int) (timestamp : String)
  | parseFailed (error : String) (return_code : Int) (timestamp : String)
  | completed (report : ReportDict) (return_code : Int) (timestamp : String)
deriving Repr, DecidableEq

/-- `execute_test_suite(suite_name)` from `mcp_server/tools.py`, as a
function of the tests-directory listing, the engine behaviour for this run,
and the captured timestamp.  The path `TESTS_DIR / f"{suite_name}.robot"`
is built unconditionally; its existence check is membership of
`suite_name ++ ".robot"` in the directory listing.  The side effects
(creating the results sub-directory, overwriting artifacts) do not affect
the returned payload and are not modelled. -/
def executeTestSuite (suite_name : String) (testFiles : List String)
    (eng : EngineBehavior) (timestamp : String) : ExecutePayload :=
  if testFiles.contains (suite_name ++ ".robot") = false then
    .notFound ("Suite \x27" ++ suite_name ++ "\x27 not found")
      ((globRobot testFiles).map robotStem)
  else
    match eng.run with
    | .error exc => .executionFailed ("Execution failed: " ++ exc) timestamp
    | .ok rc =>
      if eng.outputCreated = false then
        .outputMissing "output.xml was not created — execution may have crashed"
          rc timestamp
      else
        match eng.parse with
        | .error exc =>
          .parseFailed ("Result parsing failed: " ++ exc) rc timestamp
        | .ok result => .completed (resultToDict result) rc timestamp

/-- The `/tools/execute` endpoint: pydantic runs
`_validate_suite_name(suite_name)` on the request model; a `ValueError`
rejects the request before the tool runs, otherwise the validated value is
passed to `execute_test_suite`. -/
def apiExecute (suite_name : String) (testFiles : List String)
    (eng : EngineBehavior) (timestamp : String) :
    Except ValidateError ExecutePayload :=
  match validateSuiteName suite_name false with
  | .error e => .error e
  | .ok v => .ok (executeTestSuite v testFiles eng timestamp)

deriving instance DecidableEq for Except

/-- The combined per-message filter of the search loop: the message severity
lies in the allowed set and the keyword is a case-insensitive substring of
the message text. -/
def matchPred (allowed : List String) (keyword : String)
    (p : Elem × List Elem) : Bool :=
  allowed.contains (upperS ((p.1.attrGet "level").getD "")) &&
    containsCI p.1.text keyword

/-- The entry `search_test_logs` builds for a matching message. -/
def entryOf (suite_name : String) (p : Elem × List Elem) : LogEntry :=
  { suite := suite_name
    test := findAncestorTestName p.1 p.2
    level := upperS ((p.1.attrGet "level").getD "")
    timestamp := (p.1.attrGet "timestamp").getD ""
    message := trimS p.1.text }

/-- An artifact that parsed and whose message elements all carry one of the
six recognized severities (true of every engine-produced report). -/
def artifactAllMsgsOk (f : Artifact) : Bool :=
  match f.parsed with
  | none => false
  | some root => (collectMsgs [] root).all
      (fun p => severity_order.contains (upperS ((p.1.attrGet "level").getD "")))

/- ---------------------------------------------------------------------------
A small concrete report used to instantiate the theorems below: one test
containing a FAIL message, plus one suite-level WARN message.
--------------------------------------------------------------------------- -/

/-- A FAIL-level message inside a keyword inside a test. -/
def sampleMsg : Elem :=
  .mk "msg" [("level", "FAIL"), ("timestamp", "T1")] "Connection timeout" []

/-- The keyword element holding `sampleMsg`. -/
def sampleKw : Elem := .mk "kw" [] "" [sampleMsg]

/-- The test element holding `sampleKw`. -/
def sampleTest : Elem := .mk "test" [("name", "T-A")] "" [sampleKw]

/-- A WARN-level message directly under the suite (no test ancestor). -/
def sampleSuiteMsg : Elem :=
  .mk "msg" [("level", "WARN"), ("timestamp", "T2")] "suite warn" []

/-- The suite element. -/
def sampleSuite : Elem :=
  .mk "suite" [("name", "S")] "" [sampleTest, sampleSuiteMsg]

/-- The report root. -/
def sampleRoot : Elem := .mk "robot" [] "" [sampleSuite]

/-- The report artifact for suite directory `alpha`. -/
def sampleArtifact : Artifact := ⟨"alpha", 5, some sampleRoot⟩

/-- The search entry produced from `sampleMsg`. -/
def failEntry : LogEntry :=
  { suite := "alpha", test := "T-A", level := "FAIL", timestamp := "T1",
    message := "Connection timeout" }

/-- The search entry produced from `sampleSuiteMsg`. -/
def warnEntry : LogEntry :=
  { suite := "alpha", test := "(suite-level)", level := "WARN",
    timestamp := "T2", message := "suite warn" }

/- ---------------------------------------------------------------------------
Theorems.
--------------------------------------------------------------------------- -/

/-- C2: the validator rejects every value containing a dangerous character or
a `..` sequence; it accepts, unchanged, every value that exactly matches
`^[a-zA-Z][a-zA-Z0-9_]{0,63}$` and has no dangerous substring; and an empty
value is rejected unless `allow_empty` is set, in which case it is returned
unchanged. -/
theorem validate_suite_name_spec :
    (∀ (v : String) (ae : Bool), containsDangerous v = true →
      exceptOk (validateSuiteName v ae) = false) ∧
    (∀ (v : String) (ae : Bool), strictSafeMatch v.data = true →
      containsDangerous v = false → validateSuiteName v ae = Except.ok v) ∧
    (∀ v : String, v.data = [] →
      validateSuiteName v true = Except.ok v ∧
      exceptOk (validateSuiteName v false) = false) := by
  refine ⟨?_, ?_, ?_⟩
  · intro v ae h
    have hne : v.data ≠ [] := by
      intro h0
      rw [containsDangerous, h0] at h
      simp [charsSub] at h
    rw [validateSuiteName]
    simp [hne, h, exceptOk]
  · intro v ae hs hd
    have hne : v.data ≠ [] := by
      intro h0
      rw [h0] at hs
      simp [strictSafeMatch] at hs
    have hm : pyMatchSafe v = true := by
      rw [pyMatchSafe, hs]
      simp
    rw [validateSuiteName]
    simp [hne, hd, hm]
  · intro v hv
    constructor
    · rw [validateSuiteName]
      simp [hv]
    · rw [validateSuiteName]
      simp [hv, exceptOk]

/-- Closed instances of `validate_suite_name_spec`: a dangerous value is
rejected, a safe value is returned unchanged, and the empty value passes
only with `allow_empty`. -/
theorem validate_suite_name_spec_witness :
    exceptOk (validateSuiteName "a..b" false) = false ∧
    validateSuiteName "Alpha_1" false = Except.ok "Alpha_1" ∧
    validateSuiteName "" true = Except.ok "" ∧
    exceptOk (validateSuiteName "" false) = false :=
  ⟨validate_suite_name_spec.1 "a..b" false (by decide),
   validate_suite_name_spec.2.1 "Alpha_1" false (by decide) (by decide),
   (validate_suite_name_spec.2.2 "" (by decide)).1,
   (validate_suite_name_spec.2.2 "" (by decide)).2⟩

/-- Each test carries exactly one of the three statuses, so the three status
counts partition the test list. -/
theorem length_eq_status_counts (ts : List RFTest) :
    ts.length = ts.countP (fun t => t.status = RFStatus.pass)
      + ts.countP (fun t => t.status = RFStatus.fail)
      + ts.countP (fun t => t.status = RFStatus.skip) := by
  induction ts with
  | nil => simp
  | cons t rest ih =>
    cases h : t.status <;> simp [List.countP_cons, h, ih] <;> omega

/-- C9: every report dict built by `_result_to_dict` satisfies
`total = passed + failed + skipped` (the counts are `Nat`, hence
non-negative). -/
theorem report_total_invariant (r : RFResult) :
    (resultToDict r).total =
      (resultToDict r).passed + (resultToDict r).failed +
        (resultToDict r).skipped := by
  rw [resultToDict]
  exact length_eq_status_counts r.suite.tests

/-- C10: with no report artifact present, `search_test_logs` returns the
no-artifacts error payload for every keyword and every valid log level. -/
theorem search_no_artifacts_error (keyword log_level : String)
    (h : VALID_LEVELS.contains (upperS log_level) = true) :
    searchTestLogs keyword log_level [] =
      Except.error "No output.xml files found. Run execute_test_suite first." := by
  rw [searchTestLogs]
  simp [h, sortByMtime]
  exact fun hc => absurd (by simpa using h) hc

/-- Closed instance of `search_no_artifacts_error`, with a lower-case level
to exercise the case-insensitization. -/
theorem search_no_artifacts_error_witness :
    searchTestLogs "timeout" "warn" [] =
      Except.error "No output.xml files found. Run execute_test_suite first." :=
  search_no_artifacts_error "timeout" "warn" (by decide)

/-- C6: for a suite name whose definition file is absent, `execute_test_suite`
returns (rather than raising) the not-found payload whose message names the
suite and whose `available_suites` lists exactly the stems of the `.robot`
files currently in the tests directory. -/
theorem execute_unknown_suite_not_found (s : String) (tests : List String)
    (eng : EngineBehavior) (ts : String)
    (h : tests.contains (s ++ ".robot") = false) :
    executeTestSuite s tests eng ts =
      ExecutePayload.notFound ("Suite \x27" ++ s ++ "\x27 not found")
        ((tests.filter (fun f => endsWithS f ".robot")).map robotStem) ∧
    ∀ x, x ∈ (tests.filter (fun f => endsWithS f ".robot")).map robotStem ↔
      ∃ f, f ∈ tests ∧ endsWithS f ".robot" = true ∧ robotStem f = x := by
  have h2 : (s ++ ".robot") ∉ tests := by simpa using h
  constructor
  · rw [executeTestSuite]
    simp [h2, globRobot]
  · intro x
    simp [List.mem_map, List.mem_filter, and_assoc]

/-- Closed instance of `execute_unknown_suite_not_found` on a two-entry
directory: the non-`.robot` entry is not listed, the `.robot` one is listed
by its stem. -/
theorem execute_unknown_suite_not_found_witness :
    executeTestSuite "alpha" ["beta.robot", "notes.txt"]
        ⟨Except.ok 0, true, Except.error "x"⟩ "t" =
      ExecutePayload.notFound "Suite \x27alpha\x27 not found" ["beta"] ∧
    "beta" ∈ (List.filter (fun f => endsWithS f ".robot")
        ["beta.robot", "notes.txt"]).map robotStem :=
  have h := execute_unknown_suite_not_found "alpha" ["beta.robot", "notes.txt"]
    ⟨Except.ok 0, true, Except.error "x"⟩ "t" (by decide)
  ⟨h.1.trans (by decide),
   (h.2 "beta").mpr ⟨"beta.robot", by decide, by decide, by decide⟩⟩

/-- C7: with the suite file present, `execute_test_suite` maps each failure
mode of the engine run to its own returned payload rather than propagating:
a raised engine exception becomes the execution-failure payload carrying the
exception message and the timestamp; a run that returns without creating
`output.xml` becomes the crashed payload carrying the return code; a created
but unparsable `output.xml` becomes the parse-failure payload; and the three
payloads are pairwise distinct. -/
theorem execute_error_payloads (s : String) (tests : List String)
    (eng : EngineBehavior) (ts : String)
    (h : tests.contains (s ++ ".robot") = true) :
    (∀ exc, eng.run = Except.error exc →
      executeTestSuite s tests eng ts =
        ExecutePayload.executionFailed ("Execution failed: " ++ exc) ts) ∧
    (∀ rc, eng.run = Except.ok rc → eng.outputCreated = false →
      executeTestSuite s tests eng ts =
        ExecutePayload.outputMissing
          "output.xml was not created — execution may have crashed" rc ts) ∧
    (∀ rc exc, eng.run = Except.ok rc → eng.outputCreated = true →
      eng.parse = Except.error exc →
      executeTestSuite s tests eng ts =
        ExecutePayload.parseFailed ("Result parsing failed: " ++ exc) rc ts) ∧
    (∀ a b c d e f g i j,
      ExecutePayload.executionFailed a b ≠ ExecutePayload.outputMissing c d e ∧
      ExecutePayload.executionFailed a b ≠ ExecutePayload.parseFailed f g i ∧
      ExecutePayload.outputMissing c d e ≠ ExecutePayload.parseFailed f g j) := by
  have h2 : (s ++ ".robot") ∈ tests := by simpa using h
  refine ⟨?_, ?_, ?_, ?_⟩
  · intro exc hrun
    rw [executeTestSuite]
    simp [h2, hrun]
  · intro rc hrun hout
    rw [executeTestSuite]
    simp [h2, hrun, hout]
  · intro rc exc hrun hout hparse
    rw [executeTestSuite]
    simp [h2, hrun, hout, hparse]
  · intro a b c d e f g i j
    refine ⟨?_, ?_, ?_⟩ <;> intro hij <;> cases hij

/-- Closed instances of `execute_error_payloads`: one engine behaviour per
failure mode, each at the suite file `ok.robot`. -/
theorem execute_error_payloads_witness :
    executeTestSuite "ok" ["ok.robot"] ⟨Except.error "boom", false, Except.error "p"⟩ "t" =
      ExecutePayload.executionFailed "Execution failed: boom" "t" ∧
    executeTestSuite "ok" ["ok.robot"] ⟨Except.ok 1, false, Except.error "p"⟩ "t" =
      ExecutePayload.outputMissing
        "output.xml was not created — execution may have crashed" 1 "t" ∧
    executeTestSuite "ok" ["ok.robot"] ⟨Except.ok 1, true, Except.error "bad xml"⟩ "t" =
      ExecutePayload.parseFailed "Result parsing failed: bad xml" 1 "t" :=
  ⟨((execute_error_payloads "ok" ["ok.robot"]
      ⟨Except.error "boom", false, Except.error "p"⟩ "t" (by decide)).1
      "boom" rfl).trans (by decide),
   ((execute_error_payloads "ok" ["ok.robot"]
      ⟨Except.ok 1, false, Except.error "p"⟩ "t" (by decide)).2.1
      1 rfl rfl),
   ((execute_error_payloads "ok" ["ok.robot"]
      ⟨Except.ok 1, true, Except.error "bad xml"⟩ "t" (by decide)).2.2.1
      1 "bad xml" rfl rfl rfl).trans (by decide)⟩

/-- A successful validation returns its input unchanged. -/
theorem validateSuiteName_ok_eq (v : String) (ae : Bool) (w : String)
    (h : validateSuiteName v ae = Except.ok w) : w = v := by
  unfold validateSuiteName at h
  split_ifs at h <;> simp_all

/-- C1 counterexample: `execute_test_suite` itself performs no validation.
For the input `abc;x` — rejected by `_validate_suite_name` for the shell
metacharacter `;` — the tool still builds the path `TESTS_DIR/abc;x.robot`,
finds it in the listing, and invokes the engine on it (the outcome of the run is
returned, not a validation error). -/
theorem execute_unvalidated_path_counterexample :
    exceptOk (validateSuiteName "abc;x" false) = false ∧
    executeTestSuite "abc;x" ["abc;x.robot"]
        ⟨Except.error "boom", false, Except.error "p"⟩ "t" =
      ExecutePayload.executionFailed "Execution failed: boom" "t" := by
  decide

/-- C1 amended: the safe-identifier validation happens exactly once, at the
HTTP facade: a request that reaches the tool through `/tools/execute` always
carries a name the validator accepted unchanged; the tool layer itself
constructs the path without validating, as some rejected name reaches the
engine when called directly. -/
theorem execute_validated_at_facade :
    (∀ (s : String) (tests : List String) (eng : EngineBehavior)
        (ts : String) (p : ExecutePayload),
      apiExecute s tests eng ts = Except.ok p →
        validateSuiteName s false = Except.ok s) ∧
    (∃ (s : String) (tests : List String) (eng : EngineBehavior)
        (ts exc : String),
      exceptOk (validateSuiteName s false) = false ∧
      executeTestSuite s tests eng ts =
        ExecutePayload.executionFailed ("Execution failed: " ++ exc) ts) := by
  constructor
  · intro s tests eng ts p h
    rw [apiExecute] at h
    cases hv : validateSuiteName s false with
    | error e => rw [hv] at h; cases h
    | ok v => exact congrArg Except.ok (validateSuiteName_ok_eq s false v hv)
  · exact ⟨"abc;y", ["abc;y.robot"],
      ⟨Except.error "boom", false, Except.error "p"⟩, "t", "boom",
      by decide, by decide⟩

/-- Closed instance of `execute_validated_at_facade`: a concrete accepted
request implies the validator accepted its suite name unchanged. -/
theorem execute_validated_at_facade_witness :
    validateSuiteName "alpha" false = Except.ok "alpha" :=
  execute_validated_at_facade.1 "alpha" []
    ⟨Except.ok 0, true, Except.error "x"⟩ "t"
    (ExecutePayload.notFound "Suite \x27alpha\x27 not found" []) (by decide)

/-- Without a `*** Settings ***` line, `in_settings` never becomes true and
the documentation accumulator is returned untouched. -/
theorem extractLoop_no_settings (lines : List String) :
    ∀ (cap : Bool) (acc : List String),
      (∀ raw ∈ lines, trimS raw ≠ "*** Settings ***") →
      extractLoop lines false cap acc = acc := by
  induction lines with
  | nil => intro cap acc h; rfl
  | cons raw rest ih =>
    intro cap acc h
    have h0 : trimS raw ≠ "*** Settings ***" := h raw (by simp)
    simp only [extractLoop, if_neg h0, Bool.and_false, Bool.false_eq_true,
      if_false, if_pos rfl]
    exact ih cap acc (fun r hr => h r (by simp [hr]))

/-- Without a `documentation` line, `capturing` never becomes true and the
documentation accumulator is returned untouched. -/
theorem extractLoop_no_doc (lines : List String) :
    ∀ (ins : Bool) (acc : List String),
      (∀ raw ∈ lines, startsWithS (lowerS (trimS raw)) "documentation" = false) →
      extractLoop lines ins false acc = acc := by
  induction lines with
  | nil => intro ins acc h; rfl
  | cons raw rest ih =>
    intro ins acc h
    have h0 : startsWithS (lowerS (trimS raw)) "documentation" = false :=
      h raw (by simp)
    have htail : ∀ raw ∈ rest,
        startsWithS (lowerS (trimS raw)) "documentation" = false :=
      fun r hr => h r (by simp [hr])
    simp only [extractLoop, Bool.false_and, Bool.false_eq_true, if_false, h0]
    by_cases h1 : trimS raw = "*** Settings ***"
    · simp only [if_pos h1]
      exact ih true acc htail
    · simp only [if_neg h1]
      by_cases h2 : (startsWithS (trimS raw) "*** " && ins) = true
      · simp only [if_pos h2]
      · simp only [if_neg h2]
        by_cases h3 : ins = false
        · simp only [if_pos h3]
          exact ih false acc htail
        · simp only [if_neg h3]
          exact ih true acc htail

/-- The documentation pieces collected by the loop do not depend on the
accumulator: every piece (primary line and continuation lines) is appended
on the right, in line order. -/
theorem extractLoop_append (lines : List String) :
    ∀ (ins cap : Bool) (acc : List String),
      extractLoop lines ins cap acc = acc ++ extractLoop lines ins cap [] := by
  induction lines with
  | nil => intro ins cap acc; simp [extractLoop]
  | cons raw rest ih =>
    intro ins cap acc
    by_cases h1 : trimS raw = "*** Settings ***"
    · simp only [extractLoop, if_pos h1]
      exact ih true cap acc
    · simp only [extractLoop, if_neg h1]
      by_cases h2 : (startsWithS (trimS raw) "*** " && ins) = true
      · simp only [if_pos h2, List.append_nil]
      · simp only [if_neg h2]
        by_cases h3 : ins = false
        · simp only [if_pos h3]
          exact ih false cap acc
        · simp only [if_neg h3]
          by_cases h4 : (cap && startsWithS (trimS raw) "...") = true
          · simp only [if_pos h4]
            rw [ih true cap (acc ++ [trimS (dropS (trimS raw) 3)]),
              ih true cap ([] ++ [trimS (dropS (trimS raw) 3)])]
            simp [List.append_assoc]
          · simp only [if_neg h4]
            by_cases h5 : startsWithS (lowerS (trimS raw)) "documentation" = true
            · simp only [if_pos h5]
              cases hsp : splitOnce (trimS raw).data with
              | nil => exact ih true true acc
              | cons first tail =>
                cases tail with
                | nil => exact ih true true acc
                | cons second tail2 =>
                  show extractLoop rest true true (acc ++ [String.mk second]) =
                    acc ++ extractLoop rest true true ([] ++ [String.mk second])
                  rw [ih true true (acc ++ [String.mk second]),
                    ih true true ([] ++ [String.mk second])]
                  simp [List.append_assoc]
            · simp only [if_neg h5]
              exact ih true false acc

/-- C8 fails on the code: suite discovery can raise.  With the tests
directory containing `bad.robot` whose bytes are not valid UTF-8, the
`read_text(encoding="utf-8")` call inside `_extract_suite_doc`
(tools.py line 73) raises `UnicodeDecodeError`, which neither
`_extract_suite_doc` nor `list_available_tests` catches, so the exception
propagates out of the tool instead of any payload being returned; the same
directory with decodable content returns the descriptor array normally. -/
theorem list_tests_raises_on_undecodable_file :
    listAvailableTests true ["bad.robot"]
        (fun _ => Except.error
          "\x27utf-8\x27 codec can\x27t decode byte 0xff in position 0: invalid start byte") =
      DiscoveryResult.raised
        "\x27utf-8\x27 codec can\x27t decode byte 0xff in position 0: invalid start byte" ∧
    listAvailableTests true ["bad.robot"]
        (fun _ => Except.ok ["*** Settings ***", "Documentation    Checks bad"]) =
      DiscoveryResult.ok
        [{ name := "bad", file := "tests/bad.robot",
           description := "Checks bad" }] := by
  decide

/-- `msgToEntry` is the filter `matchPred` followed by the constructor
`entryOf`. -/
theorem msgToEntry_eq (sn : String) (allowed : List String) (k : String)
    (m : Elem) (anc : List Elem) :
    msgToEntry sn allowed k m anc =
      if matchPred allowed k (m, anc) = true then some (entryOf sn (m, anc))
      else none := by
  rw [msgToEntry, matchPred, entryOf]
  by_cases h1 : allowed.contains (upperS ((m.attrGet "level").getD "")) = true
  · by_cases h2 : containsCI m.text k = true
    · simp [h1, h2]
    · simp [h1, h2]
  · have h1m : upperS ((m.attrGet "level").getD "") ∉ allowed := by
      simpa using h1
    simp [h1m]

/-- The `filterMap` over `msgToEntry` in the search loop equals filtering by
`matchPred` and mapping `entryOf`. -/
theorem filterMap_msgToEntry (sn : String) (allowed : List String)
    (k : String) (l : List (Elem × List Elem)) :
    l.filterMap (fun p => msgToEntry sn allowed k p.1 p.2) =
      (l.filter (matchPred allowed k)).map (entryOf sn) := by
  induction l with
  | nil => rfl
  | cons p rest ih =>
    rw [List.filterMap_cons, List.filter_cons]
    by_cases h : matchPred allowed k p = true
    · rw [msgToEntry_eq]
      simp [h, ih]
    · rw [msgToEntry_eq]
      simp [h, ih]

/-- Membership is preserved by the stable insertion. -/
theorem mem_insertByMtime (a b : Artifact) (l : List Artifact) :
    a ∈ insertByMtime b l ↔ a = b ∨ a ∈ l := by
  induction l with
  | nil => simp [insertByMtime]
  | cons c cs ih =>
    rw [insertByMtime]
    by_cases h : b.mtime < c.mtime
    · simp only [if_pos h, List.mem_cons, ih]
      tauto
    · simp only [if_neg h, List.mem_cons]

/-- Sorting by modification time neither adds nor removes artifacts. -/
theorem mem_sortByMtime (a : Artifact) (l : List Artifact) :
    a ∈ sortByMtime l ↔ a ∈ l := by
  induction l with
  | nil => simp [sortByMtime]
  | cons c cs ih =>
    rw [sortByMtime, mem_insertByMtime]
    simp [ih]

/-- Stable insertion preserves the newest-first ordering. -/
theorem pairwise_insertByMtime (a : Artifact) (l : List Artifact)
    (h : List.Pairwise (fun x y => y.mtime ≤ x.mtime) l) :
    List.Pairwise (fun x y => y.mtime ≤ x.mtime) (insertByMtime a l) := by
  induction l with
  | nil => simp [insertByMtime]
  | cons b bs ih =>
    rw [List.pairwise_cons] at h
    rw [insertByMtime]
    by_cases hab : a.mtime < b.mtime
    · rw [if_pos hab, List.pairwise_cons]
      constructor
      · intro x hx
        rcases (mem_insertByMtime x a bs).1 hx with hxa | hxb
        · rw [hxa]; exact Nat.le_of_lt hab
        · exact h.1 x hxb
      · exact ih h.2
    · rw [if_neg hab, List.pairwise_cons]
      constructor
      · intro x hx
        rcases List.mem_cons.1 hx with hxb | hxbs
        · rw [hxb]; exact Nat.le_of_not_lt hab
        · exact Nat.le_trans (h.1 x hxbs) (Nat.le_of_not_lt hab)
      · rw [List.pairwise_cons]
        exact h

/-- The search scans artifacts newest first. -/
theorem pairwise_sortByMtime (l : List Artifact) :
    List.Pairwise (fun x y => y.mtime ≤ x.mtime) (sortByMtime l) := by
  induction l with
  | nil => simp [sortByMtime]
  | cons a as ih => exact pairwise_insertByMtime a (sortByMtime as) ih

/-- Sorting preserves the artifact count. -/
theorem sortByMtime_length (l : List Artifact) :
    (sortByMtime l).length = l.length := by
  induction l with
  | nil => rfl
  | cons a as ih =>
    rw [sortByMtime]
    have hi : ∀ (b : Artifact) (m : List Artifact),
        (insertByMtime b m).length = m.length + 1 := by
      intro b m
      induction m with
      | nil => rfl
      | cons c cs ihm =>
        rw [insertByMtime]
        by_cases h : b.mtime < c.mtime
        · simp [if_pos h, ihm]
        · simp [if_neg h]
    rw [hi, ih, List.length_cons]

mutual

/-- Every element collected by the message traversal is tagged `"msg"`. -/
theorem collectMsgs_tag_msg (anc : List Elem) (e : Elem) :
    ∀ p ∈ collectMsgs anc e, p.1.tag = "msg" := by
  cases e with
  | mk t a tx cs =>
    intro p hp
    rw [collectMsgs] at hp
    rcases List.mem_append.1 hp with h | h
    · by_cases ht : t = "msg"
      · rw [if_pos ht] at h
        rcases List.mem_singleton.1 h with rfl
        simpa [Elem.tag] using ht
      · rw [if_neg ht] at h
        cases h
    · exact collectMsgsList_tag_msg _ cs p h

/-- Every element collected over a child list is tagged `"msg"`. -/
theorem collectMsgsList_tag_msg (anc : List Elem) (cs : List Elem) :
    ∀ p ∈ collectMsgsList anc cs, p.1.tag = "msg" := by
  cases cs with
  | nil =>
    intro p hp
    rw [collectMsgsList] at hp
    cases hp
  | cons c cs2 =>
    intro p hp
    rw [collectMsgsList] at hp
    rcases List.mem_append.1 hp with h | h
    · exact collectMsgs_tag_msg anc c p h
    · exact collectMsgsList_tag_msg anc cs2 p h

end

/-- The upward walk returns the name of the first `"test"` element of the
chain, or the suite-level sentinel when the chain has none. -/
theorem walkUp_find (l : List Elem) :
    walkUp l = (match l.find? (fun a => a.tag = "test") with
      | some t => (t.attrGet "name").getD "(unknown)"
      | none => "(suite-level)") := by
  induction l with
  | nil => rfl
  | cons n rest ih =>
    by_cases h : n.tag = "test"
    · rw [walkUp, if_pos h, List.find?_cons_of_pos _ (by simp [h])]
    · rw [walkUp, if_neg h, ih, List.find?_cons_of_neg _ (by simp [h])]

/-- For a lower minimum index the allowed severity set only grows. -/
theorem allowedLevels_mono (lv1 lv2 : String)
    (h : severity_order.findIdx (fun s => s = lv1) ≤
         severity_order.findIdx (fun s => s = lv2)) :
    ∀ x ∈ allowedLevels lv2, x ∈ allowedLevels lv1 := by
  intro x hx
  rw [allowedLevels] at hx ⊢
  have hd : (severity_order.drop
        (severity_order.findIdx (fun s => s = lv1))).drop
        (severity_order.findIdx (fun s => s = lv2) -
          severity_order.findIdx (fun s => s = lv1)) =
      severity_order.drop (severity_order.findIdx (fun s => s = lv2)) := by
    rw [List.drop_drop]
    congr 1
    omega
  rw [← hd] at hx
  exact List.drop_subset _ _ hx

/-- The empty keyword matches every message text. -/
theorem containsCI_empty (s : String) : containsCI s "" = true := by
  rw [containsCI, strContains]
  cases h : (lowerS s).data with
  | nil => rfl
  | cons c cs => rfl

/-- `flatMap` congruence over the members of the list. -/
theorem flatMap_congr_mem {α β : Type} (l : List α) (f g : α → List β)
    (h : ∀ a ∈ l, f a = g a) : l.flatMap f = l.flatMap g := by
  induction l with
  | nil => rfl
  | cons a rest ih =>
    rw [List.flatMap_cons, List.flatMap_cons, h a (by simp),
      ih (fun x hx => h x (by simp [hx]))]

/-- A successful search result is the newest-first scan of the artifacts,
filtered by `matchPred` and rendered by `entryOf`; success also certifies
the level was valid and at least one artifact existed. -/
theorem search_ok_unfold (keyword log_level : String) (files : List Artifact)
    (res : List LogEntry)
    (h : searchTestLogs keyword log_level files = Except.ok res) :
    res = (sortByMtime files).flatMap (fun f =>
        match f.parsed with
        | none => []
        | some root =>
          ((collectMsgs [] root).filter
            (matchPred (allowedLevels (upperS log_level)) keyword)).map
            (entryOf f.suiteName)) ∧
    VALID_LEVELS.contains (upperS log_level) = true ∧
    (sortByMtime files).isEmpty = false := by
  rw [searchTestLogs] at h
  split at h
  · cases h
  · rename_i hval
    simp only [] at h
    split at h
    · cases h
    · rename_i hemp
      injection h with h2
      refine ⟨?_, by simpa using hval, by simpa using hemp⟩
      rw [← h2]
      apply flatMap_congr_mem
      intro f hf
      cases hp : f.parsed with
      | none => rfl
      | some root =>
        simp only [hp]
        exact filterMap_msgToEntry f.suiteName _ keyword _

/-- Sorting does not change emptiness. -/
theorem sortByMtime_isEmpty (l : List Artifact) :
    (sortByMtime l).isEmpty = l.isEmpty := by
  cases l with
  | nil => rfl
  | cons a as =>
    have h1 : (sortByMtime (a :: as)).length = as.length + 1 := by
      rw [sortByMtime_length]
      rfl
    cases hc : sortByMtime (a :: as) with
    | nil => rw [hc] at h1; simp at h1
    | cons b bs => rfl

/-- C3: the severity filter is monotone in the minimum level: over the same
artifacts and keyword, every entry returned at the stricter level `l2` is
also returned at the looser level `l1` (levels compared by their index in
the TRACE < DEBUG < INFO < WARN < ERROR < FAIL order). -/
theorem search_monotone_in_level (keyword l1 l2 : String)
    (files : List Artifact) (r1 r2 : List LogEntry)
    (hle : severity_order.findIdx (fun s => s = upperS l1) ≤
           severity_order.findIdx (fun s => s = upperS l2))
    (h1 : searchTestLogs keyword l1 files = Except.ok r1)
    (h2 : searchTestLogs keyword l2 files = Except.ok r2) :
    ∀ e ∈ r2, e ∈ r1 := by
  intro e he
  obtain ⟨hr1, -, -⟩ := search_ok_unfold keyword l1 files r1 h1
  obtain ⟨hr2, -, -⟩ := search_ok_unfold keyword l2 files r2 h2
  rw [hr2] at he
  rw [hr1]
  rw [List.mem_flatMap] at he ⊢
  obtain ⟨f, hf, hef⟩ := he
  refine ⟨f, hf, ?_⟩
  cases hp : f.parsed with
  | none => simp [hp] at hef
  | some root =>
    simp only [hp] at hef ⊢
    rw [List.mem_map] at hef ⊢
    obtain ⟨p, hpmem, hpe⟩ := hef
    rw [List.mem_filter] at hpmem
    refine ⟨p, List.mem_filter.mpr ⟨hpmem.1, ?_⟩, hpe⟩
    have hm2 := hpmem.2
    rw [matchPred, Bool.and_eq_true] at hm2
    rw [matchPred, Bool.and_eq_true]
    refine ⟨?_, hm2.2⟩
    have hmem2 : upperS ((p.1.attrGet "level").getD "") ∈
        allowedLevels (upperS l2) := by simpa using hm2.1
    simpa using allowedLevels_mono (upperS l1) (upperS l2) hle _ hmem2

/-- Closed instance of `search_monotone_in_level`: the FAIL-level entry found
when searching at ERROR is among the entries found when searching at WARN
over the same artifact. -/
theorem search_monotone_in_level_witness : failEntry ∈ [failEntry, warnEntry] :=
  search_monotone_in_level "" "WARN" "ERROR" [sampleArtifact]
    [failEntry, warnEntry] [failEntry]
    (by decide) (by decide) (by decide) failEntry (by decide)

/-- C4: every matching message yields an entry of the result whose `test`
field is computed by the upward walk from the message node: it is the `name`
of the nearest ancestor tagged `"test"` (first in the nearest-first chain),
and the sentinel `"(suite-level)"` when no such ancestor exists — an
ordinary entry of the result list, not an error. -/
theorem search_attributes_nearest_test (keyword log_level : String)
    (files : List Artifact) (res : List LogEntry) (f : Artifact)
    (root m : Elem) (anc : List Elem) (e : LogEntry)
    (hs : searchTestLogs keyword log_level files = Except.ok res)
    (hf : f ∈ files) (hroot : f.parsed = some root)
    (hm : (m, anc) ∈ collectMsgs [] root)
    (he : msgToEntry f.suiteName (allowedLevels (upperS log_level)) keyword
        m anc = some e) :
    e ∈ res ∧
    e.test = findAncestorTestName m anc ∧
    e.test = (match anc.find? (fun a => a.tag = "test") with
      | some t => (t.attrGet "name").getD "(unknown)"
      | none => "(suite-level)") ∧
    (anc.find? (fun a => a.tag = "test") = none →
      e.test = "(suite-level)") := by
  have hsplit : matchPred (allowedLevels (upperS log_level)) keyword
      (m, anc) = true ∧ e = entryOf f.suiteName (m, anc) := by
    rw [msgToEntry_eq] at he
    by_cases hq : matchPred (allowedLevels (upperS log_level)) keyword
        (m, anc) = true
    · rw [if_pos hq] at he
      injection he with h2
      exact ⟨hq, h2.symm⟩
    · rw [if_neg hq] at he
      cases he
  obtain ⟨hq, hee⟩ := hsplit
  have htag : m.tag = "msg" := collectMsgs_tag_msg [] root (m, anc) hm
  have hwalk : walkUp (m :: anc) = walkUp anc := by
    rw [walkUp, htag]
    simp
  have htest : e.test = walkUp anc := by
    rw [hee]
    show findAncestorTestName m anc = walkUp anc
    rw [findAncestorTestName, hwalk]
  obtain ⟨hres, -, -⟩ := search_ok_unfold keyword log_level files res hs
  refine ⟨?_, ?_, ?_, ?_⟩
  · rw [hres, List.mem_flatMap]
    refine ⟨f, (mem_sortByMtime f files).mpr hf, ?_⟩
    simp only [hroot]
    rw [List.mem_map]
    exact ⟨(m, anc), List.mem_filter.mpr ⟨hm, hq⟩, hee.symm⟩
  · rw [hee]
    rfl
  · rw [htest, walkUp_find]
  · intro hnone
    rw [htest, walkUp_find, hnone]

/-- Closed instance of `search_attributes_nearest_test` at the suite-level
WARN message of the sample report: its chain has no `"test"` element, so the
entry carries the `"(suite-level)"` sentinel and still appears in the
(non-error) result. -/
theorem search_attributes_nearest_test_witness :
    warnEntry ∈ [warnEntry] ∧
    warnEntry.test = findAncestorTestName sampleSuiteMsg
      [sampleSuite, sampleRoot] ∧
    warnEntry.test =
      (match ([sampleSuite, sampleRoot]).find? (fun a => a.tag = "test") with
        | some t => (t.attrGet "name").getD "(unknown)"
        | none => "(suite-level)") ∧
    (([sampleSuite, sampleRoot]).find? (fun a => a.tag = "test") = none →
      warnEntry.test = "(suite-level)") :=
  search_attributes_nearest_test "warn" "WARN" [sampleArtifact] [warnEntry]
    sampleArtifact sampleRoot sampleSuiteMsg [sampleSuite, sampleRoot]
    warnEntry (by decide) (by simp) rfl
    (by simp [collectMsgs, collectMsgsList, sampleRoot, sampleSuite,
      sampleTest, sampleKw, sampleMsg, sampleSuiteMsg])
    (by decide)

/-- C5: a message is returned iff its severity is in the allowed set and the
keyword is a case-insensitive substring of its text (first conjunct: every
successful search is the newest-first scan filtered exactly by `matchPred`);
with the empty keyword at level TRACE and artifacts whose message severities
are all valid, every message event is returned (second conjunct), artifacts
ordered newest first (third conjunct) and messages in document order within
each artifact (the `collectMsgs` traversal order). -/
theorem search_returns_matching_messages :
    (∀ (keyword log_level : String) (files : List Artifact)
        (res : List LogEntry),
      searchTestLogs keyword log_level files = Except.ok res →
      res = (sortByMtime files).flatMap (fun f =>
        match f.parsed with
        | none => []
        | some root =>
          ((collectMsgs [] root).filter
            (matchPred (allowedLevels (upperS log_level)) keyword)).map
            (entryOf f.suiteName))) ∧
    (∀ files : List Artifact, files.isEmpty = false →
      (∀ f ∈ files, artifactAllMsgsOk f = true) →
      searchTestLogs "" "TRACE" files = Except.ok
        ((sortByMtime files).flatMap (fun f =>
          match f.parsed with
          | none => []
          | some root => (collectMsgs [] root).map (entryOf f.suiteName)))) ∧
    (∀ files : List Artifact,
      List.Pairwise (fun a b => b.mtime ≤ a.mtime) (sortByMtime files)) := by
  refine ⟨?_, ?_, pairwise_sortByMtime⟩
  · intro keyword log_level files res h
    exact (search_ok_unfold keyword log_level files res h).1
  · intro files hne hok
    rw [searchTestLogs]
    rw [if_neg (by decide :
      ¬(VALID_LEVELS.contains (upperS "TRACE") = false))]
    simp only []
    rw [if_neg (by rw [sortByMtime_isEmpty, hne]; simp :
      ¬((sortByMtime files).isEmpty = true))]
    congr 1
    apply flatMap_congr_mem
    intro f hf
    have hfo := hok f ((mem_sortByMtime f files).1 hf)
    rw [artifactAllMsgsOk] at hfo
    cases hp : f.parsed with
    | none => simp [hp] at hfo
    | some root =>
      rw [hp] at hfo
      simp only [hp]
      rw [filterMap_msgToEntry]
      congr 1
      apply List.filter_eq_self.mpr
      intro p hpmem
      rw [matchPred, Bool.and_eq_true]
      constructor
      · have hA : allowedLevels (upperS "TRACE") = severity_order := by decide
        rw [hA]
        exact List.all_eq_true.mp hfo p hpmem
      · exact containsCI_empty p.1.text

/-- Closed instance of `search_returns_matching_messages`: over the sample
artifact, the empty keyword at TRACE yields exactly the two message events
(test-level FAIL then suite-level WARN, in document order), and a keyword
search result equals its filtered form. -/
theorem search_returns_matching_messages_witness :
    searchTestLogs "" "TRACE" [sampleArtifact] = Except.ok
      ((sortByMtime [sampleArtifact]).flatMap (fun f =>
        match f.parsed with
        | none => []
        | some root => (collectMsgs [] root).map (entryOf f.suiteName))) ∧
    [failEntry] = (sortByMtime [sampleArtifact]).flatMap (fun f =>
      match f.parsed with
      | none => []
      | some root =>
        ((collectMsgs [] root).filter
          (matchPred (allowedLevels (upperS "ERROR")) "timeout")).map
          (entryOf f.suiteName)) :=
  ⟨search_returns_matching_messages.2.1 [sampleArtifact] rfl (by decide),
   search_returns_matching_messages.1 "timeout" "ERROR" [sampleArtifact]
     [failEntry] (by decide)⟩
